import Mathlib

set_option maxHeartbeats 1000000

/- The rational arithmetic of Batteries is `@[irreducible]` by default; the
concrete bucket scenarios below are settled by `decide`, which needs these
definitions to reduce. -/
set_option allowUnsafeReducibility true
attribute [semireducible] Rat.mul Rat.add Rat.sub Rat.inv

/-!
Shallow embedding of `src/js/model/SphereBucket.js` (phetcommon).

Modelling conventions:
* Coordinates are exact rationals (`ℚ`).  The floating-point literal `0.866`
  of the source is the exact rational `433/500`, and `-0.4 * r` is `-2/5 * r`.
* Spheres ("particles") are identified by a `Nat` id; the bucket state keeps
  the order-sensitive membership list `particles : List Nat` (the `_particles`
  array, which may contain the same reference twice) together with a store
  mapping ids to the mutable per-particle record, mirroring JavaScript
  reference semantics.
* `particle.userControlledProperty.lazyLink(listener)` is modelled by the
  `removalListener : Option Nat` field holding an attached listener token;
  `nextListenerId` generates fresh tokens.
* Euclidean `distance` comparisons are embedded as squared-distance
  comparisons over `ℚ`, which is equivalent because `Real.sqrt` is strictly
  monotone on nonnegatives; the bridging lemmas `distSq_lt_iff_dist_lt` and
  `distLtB_iff_dist_lt` at the end of the definitions make this precise.
* The unbounded `while`/`do..while` loops of the source
  (`getFirstOpenLocation`, `relayoutBucketParticles`) take explicit fuel and
  return `Option`/`Except`; `none` / `.error .outOfFuel` means the loop was
  cut off, `some` means the loop exited exactly as the source loop would.
* The `assert` in `removeParticle` is modelled as the
  `.error .assertionFailed` result.
-/

structure Vec2 where
  x : ℚ
  y : ℚ
deriving DecidableEq, Repr

/-- `Vector2.ZERO` of the DOT library. -/
def Vec2.ZERO : Vec2 := ⟨0, 0⟩

/-- Squared Euclidean distance; `Vector2.distance` is its square root. -/
def distSq (v w : Vec2) : ℚ := (v.x - w.x) ^ 2 + (v.y - w.y) ^ 2

/-- Embedding of the real comparison `u.distance(v) < c` over `ℚ`:
a nonnegative square root is `< c` iff `c` is positive and the square is
`< c ^ 2` (see `distLtB_iff_dist_lt`). -/
def distLtB (u v : Vec2) (c : ℚ) : Bool := decide (0 ≤ c) && decide (distSq u v < c ^ 2)

/-- The per-sphere mutable record the bucket manipulates: `positionProperty`,
`destinationProperty`, `userControlledProperty` and the attached
`bucketRemovalListener` (modelled as a listener token). -/
structure Particle where
  position : Vec2
  destination : Vec2
  userControlled : Bool
  removalListener : Option Nat
deriving DecidableEq, Repr

/-- State of a `SphereBucket`: the constructor-time geometry
(`this.position`, `this.size.width`, `_sphereRadius`,
`_usableWidthProportion`, `_verticalParticleOffset`), the `_particles`
array (ids, in insertion order) and the store of particle records. -/
structure SphereBucket where
  position : Vec2
  width : ℚ
  sphereRadius : ℚ
  usableWidthProportion : ℚ
  verticalParticleOffset : ℚ
  particles : List Nat
  store : Nat → Particle
  nextListenerId : Nat

/-- `particle.destinationProperty.set(v)` under reference semantics. -/
def setDestination (s : SphereBucket) (pid : Nat) (v : Vec2) : SphereBucket :=
  { s with store := fun q => if q = pid then { s.store q with destination := v } else s.store q }

/-- `particle.positionProperty.set(v)`. -/
def setPosition (s : SphereBucket) (pid : Nat) (v : Vec2) : SphereBucket :=
  { s with store := fun q => if q = pid then { s.store q with position := v } else s.store q }

/-- `particle.userControlledProperty.set(b)` (value only; listener firing is
handled at the call site, as in `extractClosestParticle`). -/
def setUserControlled (s : SphereBucket) (pid : Nat) (b : Bool) : SphereBucket :=
  { s with store := fun q => if q = pid then { s.store q with userControlled := b } else s.store q }

/-- Attach/clear `particle.bucketRemovalListener`. -/
def setRemovalListener (s : SphereBucket) (pid : Nat) (t : Option Nat) : SphereBucket :=
  { s with store := fun q => if q = pid then { s.store q with removalListener := t } else s.store q }

/-- `usableWidth` as computed in `getFirstOpenLocation` /
`getNearestOpenLocation`: `size.width * usableWidthProportion - 2 * sphereRadius`. -/
def usableWidth (s : SphereBucket) : ℚ := s.width * s.usableWidthProportion - 2 * s.sphereRadius

/-- Initial `offsetFromBucketEdge`: `(size.width - usableWidth) / 2 + sphereRadius`. -/
def initOffsetFromBucketEdge (s : SphereBucket) : ℚ :=
  (s.width - usableWidth s) / 2 + s.sphereRadius

/-- Initial `numParticlesInLayer`: `Math.floor(usableWidth / (sphereRadius * 2))`. -/
def initNumParticlesInLayer (s : SphereBucket) : ℤ :=
  ⌊usableWidth s / (s.sphereRadius * 2)⌋

/-- `getYPositionForLayer`: `position.y + verticalParticleOffset + layer * sphereRadius * 2 * 0.866`. -/
def getYPositionForLayer (s : SphereBucket) (layer : Nat) : ℚ :=
  s.position.y + s.verticalParticleOffset + (layer : ℚ) * s.sphereRadius * 2 * (433 / 500)

/-- `Util.roundSymmetric`: round half away from zero. -/
def roundSymmetric (v : ℚ) : ℤ := if v < 0 then -⌊-v + 1 / 2⌋ else ⌊v + 1 / 2⌋

/-- `getLayerForYPosition`. -/
def getLayerForYPosition (s : SphereBucket) (yPosition : ℚ) : Nat :=
  (roundSymmetric ((yPosition - (s.position.y + s.verticalParticleOffset)) /
    (s.sphereRadius * 2 * (433 / 500)))).natAbs

/-- `isPositionOpen`: no particle's destination equals the position exactly. -/
def isPositionOpen (s : SphereBucket) (position : Vec2) : Bool :=
  !(s.particles.any (fun pid => decide ((s.store pid).destination = position)))

/-- Body of the `while (!found)` loop of `getFirstOpenLocation`, with fuel. -/
def getFirstOpenLocationAux (s : SphereBucket) :
    Nat → Nat → Nat → ℤ → ℚ → Option Vec2
  | 0, _, _, _, _ => none
  | fuel + 1, row, positionInLayer, numParticlesInLayer, offsetFromBucketEdge =>
    let testLocation : Vec2 :=
      ⟨s.position.x - s.width / 2 + offsetFromBucketEdge +
        (positionInLayer : ℚ) * 2 * s.sphereRadius,
       getYPositionForLayer s row⟩
    if isPositionOpen s testLocation then some testLocation
    else if ((positionInLayer : ℤ) + 1) ≥ numParticlesInLayer then
      let num := numParticlesInLayer - 1
      let off := offsetFromBucketEdge + s.sphereRadius
      if num = 0 then
        getFirstOpenLocationAux s fuel (row + 1) 0 1 (off - s.sphereRadius)
      else
        getFirstOpenLocationAux s fuel (row + 1) 0 num off
    else
      getFirstOpenLocationAux s fuel row (positionInLayer + 1) numParticlesInLayer offsetFromBucketEdge

/-- `getFirstOpenLocation` (fuel-bounded scan, bottom layer upward,
left to right inside each layer). -/
def getFirstOpenLocation (s : SphereBucket) (fuel : Nat) : Option Vec2 :=
  getFirstOpenLocationAux s fuel 0 0 (initNumParticlesInLayer s) (initOffsetFromBucketEdge s)

/-- `countSupportingParticles`: particles strictly lower in `y` and within
Euclidean distance `sphereRadius * 3` of the position. -/
def countSupportingParticles (s : SphereBucket) (position : Vec2) : Nat :=
  s.particles.countP (fun pid =>
    decide ((s.store pid).destination.y < position.y) &&
    distLtB (s.store pid).destination position (s.sphereRadius * 3))

/-- The inline admissibility test of `getNearestOpenLocation`:
`layer === 0 || this.countSupportingParticles( testPosition ) === 2`. -/
def slotSupportable (s : SphereBucket) (layer : Nat) (position : Vec2) : Bool :=
  layer == 0 || countSupportingParticles s position == 2

/-- `highestOccupiedLayer` accumulation at the top of `getNearestOpenLocation`. -/
def highestOccupiedLayer (s : SphereBucket) : Nat :=
  s.particles.foldl (fun h pid =>
    let layer := getLayerForYPosition s ((s.store pid).destination.y)
    if layer > h then layer else h) 0

/-- The nested `for` loops of `getNearestOpenLocation` collecting
`openLocations`; `steps` counts the remaining layers to scan. -/
def collectOpenRows (s : SphereBucket) :
    Nat → Nat → ℤ → ℚ → List Vec2
  | 0, _, _, _ => []
  | steps + 1, layer, numParticlesInLayer, offsetFromBucketEdge =>
    let rowLocs := (List.range numParticlesInLayer.toNat).filterMap (fun positionInLayer =>
      let testPosition : Vec2 :=
        ⟨s.position.x - s.width / 2 + offsetFromBucketEdge +
          (positionInLayer : ℚ) * 2 * s.sphereRadius,
         getYPositionForLayer s layer⟩
      if isPositionOpen s testPosition ∧ slotSupportable s layer testPosition = true then
        some testPosition
      else none)
    let num := numParticlesInLayer - 1
    let off := offsetFromBucketEdge + s.sphereRadius
    if num = 0 then
      rowLocs ++ collectOpenRows s steps (layer + 1) 1 (off - s.sphereRadius)
    else
      rowLocs ++ collectOpenRows s steps (layer + 1) num off

/-- The full `openLocations` list built by `getNearestOpenLocation`
(layers `0 .. highestOccupiedLayer + 1`, left to right in each layer). -/
def openLocationsList (s : SphereBucket) : List Vec2 :=
  collectOpenRows s (highestOccupiedLayer s + 2) 0
    (initNumParticlesInLayer s) (initOffsetFromBucketEdge s)

/-- `getNearestOpenLocation`: start from `openLocations[0] || Vector2.ZERO`
and replace the candidate only on a strictly smaller full 2-D distance. -/
def getNearestOpenLocation (s : SphereBucket) (position : Vec2) : Vec2 :=
  let openLocations := openLocationsList s
  openLocations.foldl (fun closestOpenLocation location =>
      if distSq location position < distSq closestOpenLocation position then location
      else closestOpenLocation)
    (openLocations.headD Vec2.ZERO)

/-- `isDangling`: not on the bottom row and fewer than 2 supporting particles. -/
def isDangling (s : SphereBucket) (pid : Nat) : Bool :=
  let onBottomRow :=
    decide ((s.store pid).destination.y = s.position.y + s.verticalParticleOffset)
  !onBottomRow && decide (countSupportingParticles s (s.store pid).destination < 2)

/-- `relayoutBucketParticles`: repeatedly move the first dangling particle to
the nearest open location and restart the scan; `none` = out of fuel. -/
def relayoutBucketParticles : SphereBucket → Nat → Option SphereBucket
  | _, 0 => none
  | s, fuel + 1 =>
    match s.particles.find? (fun pid => isDangling s pid) with
    | none => some s
    | some pid =>
      relayoutBucketParticles
        (setDestination s pid (getNearestOpenLocation s (s.store pid).destination)) fuel

/-- `addParticle` (private): optional snap of position to destination, push
onto `_particles`, attach a fresh removal listener. -/
def addParticle (s : SphereBucket) (pid : Nat) (animate : Bool) : SphereBucket :=
  let s1 := if animate = false then setPosition s pid ((s.store pid).destination) else s
  let s2 := { s1 with particles := s1.particles ++ [pid] }
  let s3 := setRemovalListener s2 pid (some s2.nextListenerId)
  { s3 with nextListenerId := s3.nextListenerId + 1 }

/-- `addParticleFirstOpen` (fuel for the first-open scan). -/
def addParticleFirstOpen (s : SphereBucket) (pid : Nat) (animate : Bool) (fuel : Nat) :
    Option SphereBucket :=
  (getFirstOpenLocation s fuel).map (fun loc => addParticle (setDestination s pid loc) pid animate)

/-- `addParticleNearestOpen`: the reference point is the particle's current
destination. -/
def addParticleNearestOpen (s : SphereBucket) (pid : Nat) (animate : Bool) : SphereBucket :=
  addParticle (setDestination s pid (getNearestOpenLocation s (s.store pid).destination)) pid animate

/-- `containsParticle`: `indexOf !== -1`. -/
def containsParticle (s : SphereBucket) (pid : Nat) : Bool := decide (pid ∈ s.particles)

/-- `_.without( this._particles, particle )`: removes every occurrence. -/
def removeWithout (s : SphereBucket) (pid : Nat) : SphereBucket :=
  { s with particles := s.particles.filter (fun q => q ≠ pid) }

/-- The `if ( particle.bucketRemovalListener ) { unlink; delete }` block. -/
def detachListener (s : SphereBucket) (pid : Nat) : SphereBucket :=
  if (s.store pid).removalListener ≠ none then setRemovalListener s pid none else s

inductive RemoveErr
  | assertionFailed
  | outOfFuel
deriving DecidableEq, Repr

/-- `removeParticle( particle, skipLayout )`: asserts membership, removes
from the array, detaches the listener, relayouts unless `skipLayout`. -/
def removeParticle (s : SphereBucket) (pid : Nat) (skipLayout : Bool) (fuel : Nat) :
    Except RemoveErr SphereBucket :=
  if containsParticle s pid = false then .error .assertionFailed
  else
    let s1 := removeWithout s pid
    let s2 := detachListener s1 pid
    if skipLayout then .ok s2
    else
      match relayoutBucketParticles s2 fuel with
      | some s3 => .ok s3
      | none => .error .outOfFuel

/-- One step of the `forEach` selection loop of `extractClosestParticle`:
`closestParticle === null || closestParticle.position.distance(location) >
particle.position.distance(location)` replaces the candidate. -/
def extractStep (s : SphereBucket) (location : Vec2)
    (closestParticle : Option Nat) (pid : Nat) : Option Nat :=
  match closestParticle with
  | none => some pid
  | some c =>
    if distSq ((s.store c).position) location > distSq ((s.store pid).position) location then
      some pid
    else some c

/-- The `forEach` selection loop of `extractClosestParticle`: keep the
running candidate unless the new particle is strictly closer (so the
first-seen minimum wins). -/
def extractClosestChoice (s : SphereBucket) (location : Vec2) : Option Nat :=
  s.particles.foldl (extractStep s location) none

/-- `extractClosestParticle`: pick the closest particle by current position,
set `userControlled`, which (via the lazy link) fires the attached removal
listener and hence `removeParticle` with relayout. -/
def extractClosestParticle (s : SphereBucket) (location : Vec2) (fuel : Nat) :
    Except RemoveErr (Option Nat × SphereBucket) :=
  match extractClosestChoice s location with
  | none => .ok (none, s)
  | some pid =>
    if (s.store pid).userControlled then .ok (some pid, setUserControlled s pid true)
    else
      match ((setUserControlled s pid true).store pid).removalListener with
      | some _ =>
        (removeParticle (setUserControlled s pid true) pid false fuel).map
          (fun s2 => (some pid, s2))
      | none => .ok (some pid, setUserControlled s pid true)

/-! ### Concrete states used by counterexamples and witnesses -/

/-- A fresh sphere record: at the origin, not user-controlled, no listener. -/
def blankParticle : Particle := ⟨⟨0, 0⟩, ⟨0, 0⟩, false, none⟩

/-- An empty bucket with the spec's concrete scenario geometry:
`sphereRadius = 10`, `usableWidthProportion = 1`, `containerWidth = 100`,
positioned at the origin (`verticalParticleOffset = -0.4 * 10 = -4`). -/
def bucket100 : SphereBucket :=
  { position := ⟨0, 0⟩, width := 100, sphereRadius := 10, usableWidthProportion := 1,
    verticalParticleOffset := -4, particles := [], store := fun _ => blankParticle,
    nextListenerId := 0 }

/-- A sequence of `addParticleFirstOpen` calls (fresh ids, `animate = false`). -/
def addSeq (s : SphereBucket) (pids : List Nat) : Option SphereBucket :=
  pids.foldlM (fun st pid => addParticleFirstOpen st pid false 60) s

/-- Store for `sC2`: particles 0 and 1 occupy the two leftmost bottom slots. -/
def storeC2 : Nat → Particle := fun q =>
  if q = 0 then ⟨⟨-30, -4⟩, ⟨-30, -4⟩, false, some 0⟩
  else if q = 1 then ⟨⟨-10, -4⟩, ⟨-10, -4⟩, false, some 1⟩
  else blankParticle

/-- Bucket with two bottom-layer members; its open admissible locations are
`(10,-4)`, `(30,-4)` (layer 0) and `(-20, 333/25)` (layer 1, two supporters). -/
def sC2 : SphereBucket :=
  { bucket100 with particles := [0, 1], store := storeC2, nextListenerId := 2 }

/-- A bucket positioned away from the origin whose single bottom slot is
occupied, so that no admissible open location exists at all. -/
def sC6 : SphereBucket :=
  { position := ⟨5, 7⟩, width := 40, sphereRadius := 10, usableWidthProportion := 1,
    verticalParticleOffset := -4, particles := [0],
    store := fun q => if q = 0 then ⟨⟨5, 3⟩, ⟨5, 3⟩, false, some 0⟩ else blankParticle,
    nextListenerId := 1 }

/-! ### C1 -/

/-- C1 counterexample: eleven engine-generated `addParticleFirstOpen` calls
(filling the 4+3+2+1 pyramid and one overflow slot above the apex) produce a
member, particle 10, that sits above layer 0 with only one supporting member
— adds never run the relayout, so the dangling member persists.  This
refutes the claim for arbitrary sequences of the engine's own operations. -/
theorem c1_counterexample :
    (addSeq bucket100 (List.range 11)).isSome = true
    ∧ containsParticle ((addSeq bucket100 (List.range 11)).getD bucket100) 10 = true
    ∧ isDangling ((addSeq bucket100 (List.range 11)).getD bucket100) 10 = true := by
  decide

/-! ### C2 -/

/-- C2: the comment in `getNearestOpenLocation` says only the X component is
used to pick the closest open location, but the code compares full 2-D
distances.  Concrete divergence: from reference point `(-7,-4)` the code
returns the layer-0 slot `(10,-4)` (2-D distance 17) even though the open
location `(-20, 333/25)` is horizontally closer (13 < 17). -/
theorem c2_code_bug_eval :
    getNearestOpenLocation sC2 ⟨-7, -4⟩ = ⟨10, -4⟩
    ∧ (⟨-20, 333 / 25⟩ : Vec2) ∈ openLocationsList sC2
    ∧ |(-20 : ℚ) - -7| < |(10 : ℚ) - -7| := by
  decide

/-! ### C5 -/

/-- C5 counterexample: consecutive layer-0 slots assigned by
`addParticleFirstOpen` are `2 * sphereRadius = 20` units apart, not 10, and
the first slot sits at bucket edge + 20 (usable-width edge + 10), not at
bucket edge + 10. -/
theorem c5_counterexample :
    (addSeq bucket100 (List.range 2)).isSome = true
    ∧ (((addSeq bucket100 (List.range 2)).getD bucket100).store 1).destination.x -
        (((addSeq bucket100 (List.range 2)).getD bucket100).store 0).destination.x = 20
    ∧ ((20 : ℚ) ≠ 10)
    ∧ (((addSeq bucket100 (List.range 1)).getD bucket100).store 0).destination.x =
        (bucket100.position.x - bucket100.width / 2) + 20
    ∧ ¬(((addSeq bucket100 (List.range 1)).getD bucket100).store 0).destination.x =
        (bucket100.position.x - bucket100.width / 2) + 10 := by
  decide

/-- C5 amended: with `sphereRadius = 10`, `usableWidthProportion = 1`,
width 100, layer 0 has 4 slots spaced `20` apart starting 20 from the bucket
edge (10 from the edge of the usable width): x = -30, -10, 10, 30.  Four
`addParticleFirstOpen` calls fill exactly these slots left to right, and the
fifth is placed on layer 1 at `(-20, 333/25)`, a position with exactly 2
supporting members. -/
theorem c5_amended_scenario :
    (addSeq bucket100 (List.range 5)).isSome = true
    ∧ (((addSeq bucket100 (List.range 4)).getD bucket100).store 0).destination = ⟨-30, -4⟩
    ∧ (((addSeq bucket100 (List.range 4)).getD bucket100).store 1).destination = ⟨-10, -4⟩
    ∧ (((addSeq bucket100 (List.range 4)).getD bucket100).store 2).destination = ⟨10, -4⟩
    ∧ (((addSeq bucket100 (List.range 4)).getD bucket100).store 3).destination = ⟨30, -4⟩
    ∧ (((addSeq bucket100 (List.range 5)).getD bucket100).store 4).destination = ⟨-20, 333 / 25⟩
    ∧ getLayerForYPosition bucket100 (333 / 25) = 1
    ∧ countSupportingParticles ((addSeq bucket100 (List.range 4)).getD bucket100)
        ⟨-20, 333 / 25⟩ = 2 := by
  decide

/-! ### C6 -/

/-- C6 counterexample: in `sC6` (bucket positioned at `(5,7)`) no admissible
open location exists, and `getNearestOpenLocation` returns `(0,0)` — the
fixed coordinate origin `Vector2.ZERO` — which is not the container's origin
coordinate. -/
theorem c6_counterexample :
    openLocationsList sC6 = []
    ∧ getNearestOpenLocation sC6 ⟨5, 7⟩ = ⟨0, 0⟩
    ∧ getNearestOpenLocation sC6 ⟨5, 7⟩ ≠ sC6.position := by
  decide

/-- C6 amended: when no admissible open location exists at all,
`getNearestOpenLocation` returns the zero vector `Vector2.ZERO`; this equals
the container's origin only when the container is positioned at the origin. -/
theorem getNearestOpenLocation_fallback_zero (s : SphereBucket) (position : Vec2)
    (h : openLocationsList s = []) : getNearestOpenLocation s position = Vec2.ZERO := by
  unfold getNearestOpenLocation
  rw [h]
  rfl

/-- Witness for `getNearestOpenLocation_fallback_zero` at the concrete
bucket `sC6`. -/
theorem getNearestOpenLocation_fallback_zero_witness :
    getNearestOpenLocation sC6 ⟨5, 7⟩ = Vec2.ZERO :=
  getNearestOpenLocation_fallback_zero sC6 ⟨5, 7⟩ (by decide)

/-! ### Accessor lemmas for the state updates -/

theorem setDestination_store_self (s : SphereBucket) (pid : Nat) (v : Vec2) :
    ((setDestination s pid v).store pid).destination = v := by
  simp [setDestination]

theorem setDestination_particles (s : SphereBucket) (pid : Nat) (v : Vec2) :
    (setDestination s pid v).particles = s.particles := rfl

theorem setDestination_listener (s : SphereBucket) (pid q : Nat) (v : Vec2) :
    ((setDestination s pid v).store q).removalListener = (s.store q).removalListener := by
  by_cases h : q = pid <;> simp [setDestination, h]

theorem addParticle_particles (s : SphereBucket) (pid : Nat) (a : Bool) :
    (addParticle s pid a).particles = s.particles ++ [pid] := by
  cases a <;> rfl

theorem addParticle_destination (s : SphereBucket) (pid : Nat) (a : Bool) (q : Nat) :
    ((addParticle s pid a).store q).destination = (s.store q).destination := by
  cases a <;> by_cases h : q = pid <;>
    simp [addParticle, setPosition, setRemovalListener, h]

theorem addParticle_listener_self (s : SphereBucket) (pid : Nat) (a : Bool) :
    ((addParticle s pid a).store pid).removalListener = some s.nextListenerId := by
  cases a <;> simp [addParticle, setPosition, setRemovalListener]

/-! ### Relayout invariants -/

theorem relayout_particles_eq (fuel : Nat) :
    ∀ s t : SphereBucket, relayoutBucketParticles s fuel = some t → t.particles = s.particles := by
  induction fuel with
  | zero => intro s t h; simp [relayoutBucketParticles] at h
  | succ n ih =>
    intro s t h
    simp only [relayoutBucketParticles] at h
    cases hf : s.particles.find? (fun pid => isDangling s pid) with
    | none => rw [hf] at h; simp at h; rw [h]
    | some pid =>
      rw [hf] at h
      have := ih _ _ h
      rw [this, setDestination_particles]

theorem relayout_listener_eq (fuel : Nat) :
    ∀ s t : SphereBucket, relayoutBucketParticles s fuel = some t →
      ∀ q, (t.store q).removalListener = (s.store q).removalListener := by
  induction fuel with
  | zero => intro s t h; simp [relayoutBucketParticles] at h
  | succ n ih =>
    intro s t h q
    simp only [relayoutBucketParticles] at h
    cases hf : s.particles.find? (fun pid => isDangling s pid) with
    | none => rw [hf] at h; simp at h; rw [h]
    | some pid =>
      rw [hf] at h
      rw [ih _ _ h q, setDestination_listener]

/-- Central relayout property: if the `do..while` loop of
`relayoutBucketParticles` exits (a full scan finds no dangling particle),
then no member of the resulting state is dangling. -/
theorem relayout_no_dangling (fuel : Nat) :
    ∀ s t : SphereBucket, relayoutBucketParticles s fuel = some t →
      ∀ pid ∈ t.particles, isDangling t pid = false := by
  induction fuel with
  | zero => intro s t h; simp [relayoutBucketParticles] at h
  | succ n ih =>
    intro s t h pid hmem
    simp only [relayoutBucketParticles] at h
    cases hf : s.particles.find? (fun pid => isDangling s pid) with
    | none =>
      rw [hf] at h
      simp at h
      subst h
      have := List.find?_eq_none.mp hf pid hmem
      simpa using this
    | some moved =>
      rw [hf] at h
      exact ih _ _ h pid hmem

/-! ### C1 (amended theorem) -/

/-- C1 amended: after any completed `removeParticle` with relayout enabled,
no member is dangling — every member above the bottom row has at least two
supporting members within range `3 * sphereRadius`.  (Adds beyond the
pyramid capacity can still leave a dangling member, see
`c1_counterexample`.) -/
theorem removeParticle_leaves_no_dangling (s : SphereBucket) (p : Nat) (fuel : Nat)
    (t : SphereBucket) (h : removeParticle s p false fuel = .ok t) :
    ∀ pid ∈ t.particles, isDangling t pid = false := by
  unfold removeParticle at h
  by_cases hc : containsParticle s p = false
  · rw [if_pos hc] at h; exact absurd h (by simp)
  · rw [if_neg hc] at h
    simp only [Bool.false_eq_true, if_false] at h
    cases hr : relayoutBucketParticles (detachListener (removeWithout s p) p) fuel with
    | none => rw [hr] at h; exact absurd h (by simp)
    | some t2 =>
      rw [hr] at h
      simp only [Except.ok.injEq] at h
      subst h
      exact relayout_no_dangling fuel _ _ hr

/-- Witness for `removeParticle_leaves_no_dangling`: remove the bottom-left
member of a 5-particle stack (4 bottom slots plus one layer-1 sphere); the
relayout completes and the remaining members are all non-dangling. -/
theorem removeParticle_leaves_no_dangling_witness :
    isDangling ((removeParticle ((addSeq bucket100 (List.range 5)).getD bucket100) 0 false
      20).toOption.getD bucket100) 4 = false :=
  removeParticle_leaves_no_dangling ((addSeq bucket100 (List.range 5)).getD bucket100) 0 20
    ((removeParticle ((addSeq bucket100 (List.range 5)).getD bucket100) 0 false
        20).toOption.getD bucket100) (by rfl) 4 (by decide)

/-! ### C4 -/

/-- Any location returned by the `getFirstOpenLocation` scan satisfied
`isPositionOpen` in the state it was computed from. -/
theorem getFirstOpenLocationAux_isOpen (s : SphereBucket) (fuel : Nat) :
    ∀ row positionInLayer num off v,
      getFirstOpenLocationAux s fuel row positionInLayer num off = some v →
      isPositionOpen s v = true := by
  induction fuel with
  | zero => intro row p num off v h; simp [getFirstOpenLocationAux] at h
  | succ n ih =>
    intro row p num off v h
    simp only [getFirstOpenLocationAux] at h
    split at h
    · next hopen =>
      simp only [Option.some.injEq] at h
      subst h
      exact hopen
    · split at h
      · split at h
        · exact ih _ _ _ _ _ h
        · exact ih _ _ _ _ _ h
      · exact ih _ _ _ _ _ h

/-- If a position is open, no member's destination equals it. -/
theorem isPositionOpen_ne (s : SphereBucket) (v : Vec2) (pid : Nat)
    (h : isPositionOpen s v = true) (hmem : pid ∈ s.particles) :
    (s.store pid).destination ≠ v := by
  simp only [isPositionOpen, Bool.not_eq_eq_eq_not, Bool.not_true, List.any_eq_false] at h
  exact fun he => absurd (decide_eq_true he) (h pid hmem)

/-- C4: two immediately consecutive `addParticleFirstOpen` calls assign two
distinct destination coordinates — the second scan sees the first particle's
destination as occupied, and the scan only ever returns open positions. -/
theorem addParticleFirstOpen_distinct (s : SphereBucket) (p q : Nat) (a b : Bool)
    (f1 f2 : Nat) (s1 s2 : SphereBucket)
    (h1 : addParticleFirstOpen s p a f1 = some s1)
    (h2 : addParticleFirstOpen s1 q b f2 = some s2) :
    (s2.store q).destination ≠ (s1.store p).destination := by
  unfold addParticleFirstOpen at h1 h2
  cases hl1 : getFirstOpenLocation s f1 with
  | none => rw [hl1] at h1; exact absurd h1 (by simp)
  | some l1 =>
    rw [hl1] at h1
    simp only [Option.map_some', Option.some.injEq] at h1
    cases hl2 : getFirstOpenLocation s1 f2 with
    | none => rw [hl2] at h2; exact absurd h2 (by simp)
    | some l2 =>
      rw [hl2] at h2
      simp only [Option.map_some', Option.some.injEq] at h2
      have hd1 : (s1.store p).destination = l1 := by
        rw [← h1, addParticle_destination, setDestination_store_self]
      have hd2 : (s2.store q).destination = l2 := by
        rw [← h2, addParticle_destination, setDestination_store_self]
      have hpmem : p ∈ s1.particles := by
        rw [← h1, addParticle_particles, setDestination_particles]
        exact List.mem_append_right _ (List.mem_singleton.mpr rfl)
      have hopen : isPositionOpen s1 l2 = true :=
        getFirstOpenLocationAux_isOpen s1 f2 _ _ _ _ _ hl2
      have := isPositionOpen_ne s1 l2 p hopen hpmem
      rw [hd1, hd2]
      rw [hd1] at this
      exact fun hEq => this hEq.symm

/-- Witness state: `bucket100` after one `addParticleFirstOpen`. -/
def sW4a : SphereBucket := (addParticleFirstOpen bucket100 0 false 60).getD bucket100

/-- Witness state: `sW4a` after a second `addParticleFirstOpen`. -/
def sW4b : SphereBucket := (addParticleFirstOpen sW4a 1 false 60).getD bucket100

/-- Witness for `addParticleFirstOpen_distinct`: on the concrete bucket the
two consecutive calls assign `(-30,-4)` and then `(-10,-4)`. -/
theorem addParticleFirstOpen_distinct_witness :
    (sW4b.store 1).destination ≠ (sW4a.store 0).destination :=
  addParticleFirstOpen_distinct bucket100 0 1 false false 60 60 sW4a sW4b rfl rfl

/-! ### C7 -/

/-- After `detachListener` the particle's removal listener is gone. -/
theorem detachListener_listener_none (s : SphereBucket) (pid : Nat) :
    ((detachListener s pid).store pid).removalListener = none := by
  unfold detachListener
  split
  · simp [setRemovalListener]
  · next h => simpa using h

/-- C7: `removeParticle` signals the assertion when the sphere is not a
member; when it is a member it removes the sphere from `_particles`,
detaches the removal listener, and (unless `skipLayout`) runs the relayout,
whose completed result has no dangling member. -/
theorem removeParticle_spec (s : SphereBucket) (p : Nat) (skipLayout : Bool) (fuel : Nat) :
    (containsParticle s p = false → removeParticle s p skipLayout fuel = .error .assertionFailed)
    ∧ (containsParticle s p = true →
        removeParticle s p true fuel = .ok (detachListener (removeWithout s p) p))
    ∧ (∀ t, removeParticle s p skipLayout fuel = .ok t →
        containsParticle t p = false ∧ (t.store p).removalListener = none)
    ∧ (∀ t, removeParticle s p false fuel = .ok t →
        ∀ pid ∈ t.particles, isDangling t pid = false) := by
  refine ⟨?_, ?_, ?_, ?_⟩
  · intro h; unfold removeParticle; rw [if_pos h]
  · intro h; unfold removeParticle; rw [if_neg (by simp [h]), if_pos rfl]
  · intro t ht
    unfold removeParticle at ht
    by_cases hc : containsParticle s p = false
    · rw [if_pos hc] at ht; exact absurd ht (by simp)
    · rw [if_neg hc] at ht
      have hpe : (detachListener (removeWithout s p) p).particles =
          (removeWithout s p).particles := by
        unfold detachListener
        split <;> rfl
      have hbase_mem : containsParticle (detachListener (removeWithout s p) p) p = false := by
        unfold containsParticle
        rw [hpe]
        simp [removeWithout, List.mem_filter]
      have hbase_lis :
          ((detachListener (removeWithout s p) p).store p).removalListener = none :=
        detachListener_listener_none _ _
      cases skipLayout with
      | true =>
        rw [if_pos rfl] at ht
        simp only [Except.ok.injEq] at ht
        subst ht
        exact ⟨hbase_mem, hbase_lis⟩
      | false =>
        simp only [Bool.false_eq_true, if_false] at ht
        cases hr : relayoutBucketParticles (detachListener (removeWithout s p) p) fuel with
        | none => rw [hr] at ht; exact absurd ht (by simp)
        | some t2 =>
          rw [hr] at ht
          simp only [Except.ok.injEq] at ht
          subst ht
          constructor
          · unfold containsParticle
            rw [relayout_particles_eq fuel _ _ hr]
            unfold containsParticle at hbase_mem
            exact hbase_mem
          · rw [relayout_listener_eq fuel _ _ hr p]
            exact hbase_lis
  · intro t ht
    exact removeParticle_leaves_no_dangling s p fuel t ht

/-- Witness for `removeParticle_spec` instantiated on concrete states: a
non-member removal yields the assertion failure, and a member removal
empties the membership and clears the listener. -/
theorem removeParticle_spec_witness :
    removeParticle bucket100 3 false 10 = .error .assertionFailed
    ∧ containsParticle ((removeParticle sC6 0 false 10).toOption.getD bucket100) 0 = false
    ∧ (((removeParticle sC6 0 false 10).toOption.getD bucket100).store 0).removalListener
        = none := by
  refine ⟨(removeParticle_spec bucket100 3 false 10).1 (by decide), ?_, ?_⟩
  · exact ((removeParticle_spec sC6 0 false 10).2.2.1
      ((removeParticle sC6 0 false 10).toOption.getD bucket100) rfl).1
  · exact ((removeParticle_spec sC6 0 false 10).2.2.1
      ((removeParticle sC6 0 false 10).toOption.getD bucket100) rfl).2

/-! ### C9: mutation-event trace of the removal path -/

/-- Engine/sphere mutation events, used to state ordering properties of the
removal path. -/
inductive MutEvent
  | membersArrayUpdated (pid : Nat)
  | observerUnlinked (pid : Nat)
  | destinationSet (pid : Nat) (v : Vec2)
deriving DecidableEq, Repr

/-- Mutation events emitted by `relayoutBucketParticles`, in order: one
destination write per relocated dangling particle. -/
def relayoutTrace : SphereBucket → Nat → List MutEvent
  | _, 0 => []
  | s, fuel + 1 =>
    match s.particles.find? (fun pid => isDangling s pid) with
    | none => []
    | some pid =>
      MutEvent.destinationSet pid (getNearestOpenLocation s (s.store pid).destination) ::
        relayoutTrace (setDestination s pid (getNearestOpenLocation s (s.store pid).destination))
          fuel

/-- Ordered mutation events of `removeParticle`, mirroring the statement
order of the source: the `_.without` update of `_particles` comes first,
then (if a listener is attached) the unlink of the removal observer, then
the relayout destination writes (unless `skipLayout`). -/
def removeParticleTrace (s : SphereBucket) (pid : Nat) (skipLayout : Bool) (fuel : Nat) :
    List MutEvent :=
  if containsParticle s pid = false then []
  else
    MutEvent.membersArrayUpdated pid ::
      ((if ((removeWithout s pid).store pid).removalListener ≠ none then
          [MutEvent.observerUnlinked pid]
        else []) ++
        (if skipLayout then []
         else relayoutTrace (detachListener (removeWithout s pid) pid) fuel))

/-- C9 counterexample: in the removal path the first mutation is the update
of the members array (`this._particles = _.without(...)`), not the observer
detach — so the observer is not detached before any further mutation of
engine state.  Concrete run on `sC2`. -/
theorem c9_counterexample :
    removeParticleTrace sC2 0 false 10 =
      [MutEvent.membersArrayUpdated 0, MutEvent.observerUnlinked 0]
    ∧ (removeParticleTrace sC2 0 false 10).head? ≠ some (MutEvent.observerUnlinked 0) := by
  decide

/-- Every event of the relayout trace is a destination write. -/
theorem relayoutTrace_destSet (fuel : Nat) :
    ∀ s : SphereBucket, ∀ e ∈ relayoutTrace s fuel, ∃ q v, e = MutEvent.destinationSet q v := by
  induction fuel with
  | zero => intro s e he; simp [relayoutTrace] at he
  | succ n ih =>
    intro s e he
    simp only [relayoutTrace] at he
    cases hf : s.particles.find? (fun pid => isDangling s pid) with
    | none => rw [hf] at he; simp at he
    | some pid =>
      rw [hf] at he
      simp only [List.mem_cons] at he
      rcases he with he | he
      · exact ⟨pid, _, he⟩
      · exact ih _ e he

/-- C9 amended: the removal observer is unlinked immediately after the
members-array update and before every sphere-state mutation: the trace of a
member removal with an attached listener is the members update, then the
unlink, then only relayout destination writes. -/
theorem removal_detach_order (s : SphereBucket) (pid : Nat) (fuel : Nat)
    (hmem : containsParticle s pid = true)
    (hlis : ((removeWithout s pid).store pid).removalListener ≠ none) :
    removeParticleTrace s pid false fuel =
      MutEvent.membersArrayUpdated pid :: MutEvent.observerUnlinked pid ::
        relayoutTrace (detachListener (removeWithout s pid) pid) fuel
    ∧ ∀ e ∈ relayoutTrace (detachListener (removeWithout s pid) pid) fuel,
        ∃ q v, e = MutEvent.destinationSet q v := by
  constructor
  · unfold removeParticleTrace
    rw [if_neg (by simp [hmem]), if_pos hlis, if_neg (by simp)]
    rfl
  · exact relayoutTrace_destSet fuel _

/-- Witness for `removal_detach_order` on the concrete state `sC2`. -/
theorem removal_detach_order_witness :
    removeParticleTrace sC2 0 false 10 =
      MutEvent.membersArrayUpdated 0 :: MutEvent.observerUnlinked 0 ::
        relayoutTrace (detachListener (removeWithout sC2 0) 0) 10
    ∧ ∀ e ∈ relayoutTrace (detachListener (removeWithout sC2 0) 0) 10,
        ∃ q v, e = MutEvent.destinationSet q v :=
  removal_detach_order sC2 0 10 (by decide) (by decide)

/-! ### C8 -/

/-- Characterization of the `forEach` selection loop of
`extractClosestParticle` started from candidate `b`: the result is the
first-seen minimum — everything before it in the scan is strictly farther,
and nothing in the scan is strictly closer. -/
theorem extractChoiceFold_spec (s : SphereBucket) (location : Vec2) :
    ∀ (t : List Nat) (b r : Nat),
      t.foldl (extractStep s location) (some b) = some r →
      ((∃ l1 l2, b :: t = l1 ++ r :: l2 ∧ ∀ x ∈ l1,
          distSq ((s.store r).position) location < distSq ((s.store x).position) location)
       ∧ ∀ x ∈ b :: t,
          distSq ((s.store r).position) location ≤ distSq ((s.store x).position) location) := by
  intro t
  induction t with
  | nil =>
    intro b r h
    simp only [List.foldl_nil, Option.some.injEq] at h
    subst h
    exact ⟨⟨[], [], rfl, by simp⟩, by simp⟩
  | cons q t ih =>
    intro b r h
    rw [List.foldl_cons] at h
    by_cases hlt :
        distSq ((s.store b).position) location > distSq ((s.store q).position) location
    · have hstep : extractStep s location (some b) q = some q := by
        show (if distSq ((s.store b).position) location >
            distSq ((s.store q).position) location then some q else some b) = some q
        exact if_pos hlt
      rw [hstep] at h
      obtain ⟨⟨l1, l2, heq, hpre⟩, hmin⟩ := ih q r h
      have hrq : distSq ((s.store r).position) location ≤
          distSq ((s.store q).position) location := hmin q (List.mem_cons_self _ _)
      refine ⟨⟨b :: l1, l2, by rw [List.cons_append, ← heq], ?_⟩, ?_⟩
      · intro x hx
        rcases List.mem_cons.mp hx with hx | hx
        · subst hx; exact lt_of_le_of_lt hrq hlt
        · exact hpre x hx
      · intro x hx
        rcases List.mem_cons.mp hx with hx | hx
        · subst hx; exact le_of_lt (lt_of_le_of_lt hrq hlt)
        · exact hmin x hx
    · have hstep : extractStep s location (some b) q = some b := by
        show (if distSq ((s.store b).position) location >
            distSq ((s.store q).position) location then some q else some b) = some b
        exact if_neg hlt
      rw [hstep] at h
      have hbq : distSq ((s.store b).position) location ≤
          distSq ((s.store q).position) location := le_of_not_lt hlt
      obtain ⟨⟨l1, l2, heq, hpre⟩, hmin⟩ := ih b r h
      cases l1 with
      | nil =>
        simp only [List.nil_append] at heq
        injection heq with h1 h2
        subst h1
        refine ⟨⟨[], q :: t, by rw [List.nil_append], by simp⟩, ?_⟩
        intro x hx
        rcases List.mem_cons.mp hx with hx | hx
        · subst hx; exact le_refl _
        · rcases List.mem_cons.mp hx with hx | hx
          · subst hx; exact le_trans (hmin _ (List.mem_cons_self _ _)) hbq
          · exact hmin x (List.mem_cons_of_mem _ hx)
      | cons c l1t =>
        simp only [List.cons_append] at heq
        injection heq with h1 h2
        subst h1
        have hrb : distSq ((s.store r).position) location <
            distSq ((s.store b).position) location := hpre b (List.mem_cons_self _ _)
        refine ⟨⟨b :: q :: l1t, l2, by rw [h2]; simp, ?_⟩, ?_⟩
        · intro x hx
          rcases List.mem_cons.mp hx with hx | hx
          · subst hx; exact hrb
          · rcases List.mem_cons.mp hx with hx | hx
            · subst hx; exact lt_of_lt_of_le hrb hbq
            · exact hpre x (List.mem_cons_of_mem _ hx)
        · intro x hx
          rcases List.mem_cons.mp hx with hx | hx
          · subst hx; exact hmin x (List.mem_cons_self _ _)
          · rcases List.mem_cons.mp hx with hx | hx
            · subst hx; exact le_trans (hmin b (List.mem_cons_self _ _)) hbq
            · exact hmin x (List.mem_cons_of_mem _ hx)

/-- The selection loop never loses its candidate once one exists. -/
theorem extractChoiceFold_isSome (s : SphereBucket) (location : Vec2) :
    ∀ (t : List Nat) (b : Nat),
      (t.foldl (extractStep s location) (some b)).isSome = true := by
  intro t
  induction t with
  | nil => intro b; rfl
  | cons q t ih =>
    intro b
    rw [List.foldl_cons]
    by_cases hlt :
        distSq ((s.store b).position) location > distSq ((s.store q).position) location
    · have hstep : extractStep s location (some b) q = some q := by
        show (if distSq ((s.store b).position) location >
            distSq ((s.store q).position) location then some q else some b) = some q
        exact if_pos hlt
      rw [hstep]; exact ih q
    · have hstep : extractStep s location (some b) q = some b := by
        show (if distSq ((s.store b).position) location >
            distSq ((s.store q).position) location then some q else some b) = some b
        exact if_neg hlt
      rw [hstep]; exact ih b

/-- C8: `extractClosestParticle` on an empty engine returns the `none`
result with the state unchanged; on a non-empty engine the selection loop
produces a member whose current position has minimum distance to the query
point (squared-distance comparisons are order-equivalent to Euclidean
ones), first-seen minimum winning under the strict comparison, and the
operation returns exactly that member. -/
theorem extractClosestParticle_spec (s : SphereBucket) (location : Vec2) (fuel : Nat) :
    (s.particles = [] → extractClosestParticle s location fuel = .ok (none, s))
    ∧ (s.particles ≠ [] → ∃ p, extractClosestChoice s location = some p)
    ∧ (∀ p, extractClosestChoice s location = some p →
        p ∈ s.particles
        ∧ (∀ q ∈ s.particles,
            distSq ((s.store p).position) location ≤ distSq ((s.store q).position) location)
        ∧ (∃ l1 l2, s.particles = l1 ++ p :: l2 ∧ ∀ q ∈ l1,
            distSq ((s.store p).position) location < distSq ((s.store q).position) location))
    ∧ (∀ p r t, extractClosestChoice s location = some p →
        extractClosestParticle s location fuel = .ok (r, t) → r = some p) := by
  refine ⟨?_, ?_, ?_, ?_⟩
  · intro hp
    unfold extractClosestParticle extractClosestChoice
    rw [hp]
    rfl
  · intro hne
    cases hp : s.particles with
    | nil => exact absurd hp hne
    | cons h0 t0 =>
      have := extractChoiceFold_isSome s location t0 h0
      unfold extractClosestChoice
      rw [hp, List.foldl_cons]
      have hstep : extractStep s location none h0 = some h0 := rfl
      rw [hstep]
      exact Option.isSome_iff_exists.mp this
  · intro p hp
    cases hl : s.particles with
    | nil =>
      unfold extractClosestChoice at hp
      rw [hl] at hp
      exact absurd hp (by simp)
    | cons h0 t0 =>
      unfold extractClosestChoice at hp
      rw [hl, List.foldl_cons] at hp
      have hstep : extractStep s location none h0 = some h0 := rfl
      rw [hstep] at hp
      obtain ⟨⟨l1, l2, heq, hpre⟩, hmin⟩ := extractChoiceFold_spec s location t0 h0 p hp
      refine ⟨?_, ?_, ⟨l1, l2, heq, fun q hq => hpre q hq⟩⟩
      · rw [heq]
        exact List.mem_append_right _ (List.mem_cons_self _ _)
      · intro q hq
        exact hmin q hq
  · intro p r t hp hrun
    simp only [extractClosestParticle, hp] at hrun
    by_cases huc : (s.store p).userControlled
    · rw [if_pos huc] at hrun
      simp only [Except.ok.injEq, Prod.mk.injEq] at hrun
      exact hrun.1.symm
    · rw [if_neg huc] at hrun
      cases hls : ((setUserControlled s p true).store p).removalListener with
      | none =>
        rw [hls] at hrun
        simp only [Except.ok.injEq, Prod.mk.injEq] at hrun
        exact hrun.1.symm
      | some tok =>
        rw [hls] at hrun
        cases hrem : removeParticle (setUserControlled s p true) p false fuel with
        | error e => rw [hrem] at hrun; exact absurd hrun (by simp [Except.map])
        | ok s2 =>
          rw [hrem] at hrun
          simp only [Except.map, Except.ok.injEq, Prod.mk.injEq] at hrun
          exact hrun.1.symm

/-- Witness for `extractClosestParticle_spec`: on the empty `bucket100` the
result is `none`; on `sC2` with query point `(-28,-4)` the first member
(position `(-30,-4)`, squared distance 4) is selected and returned. -/
theorem extractClosestParticle_spec_witness :
    extractClosestParticle bucket100 ⟨-28, -4⟩ 10 = .ok (none, bucket100)
    ∧ extractClosestChoice sC2 ⟨-28, -4⟩ = some 0
    ∧ (∀ q ∈ sC2.particles,
        distSq ((sC2.store 0).position) ⟨-28, -4⟩ ≤ distSq ((sC2.store q).position) ⟨-28, -4⟩)
    ∧ (∀ r t, extractClosestParticle sC2 ⟨-28, -4⟩ 10 = .ok (r, t) → r = some 0) := by
  refine ⟨(extractClosestParticle_spec bucket100 ⟨-28, -4⟩ 10).1 rfl, by decide, ?_, ?_⟩
  · exact ((extractClosestParticle_spec sC2 ⟨-28, -4⟩ 10).2.2.1 0 (by decide)).2.1
  · intro r t hrt
    exact (extractClosestParticle_spec sC2 ⟨-28, -4⟩ 10).2.2.2 0 r t (by decide) hrt

/-! ### C10 -/

/-- C10: the add operations perform no membership check — re-adding a
current member appends it again to `_particles` (it then occurs at least
twice) and overwrites the stored removal-listener reference with the newly
installed one. -/
theorem addParticle_no_membership_check (s : SphereBucket) (p : Nat) (a : Bool)
    (fuel tok : Nat)
    (hmem : containsParticle s p = true)
    (hlis : (s.store p).removalListener = some tok)
    (htok : tok ≠ s.nextListenerId) :
    (∀ s1, addParticleFirstOpen s p a fuel = some s1 →
        s1.particles = s.particles ++ [p]
        ∧ 2 ≤ s1.particles.count p
        ∧ (s1.store p).removalListener = some s.nextListenerId
        ∧ (s1.store p).removalListener ≠ (s.store p).removalListener)
    ∧ ((addParticleNearestOpen s p a).particles = s.particles ++ [p]
        ∧ 2 ≤ (addParticleNearestOpen s p a).particles.count p
        ∧ ((addParticleNearestOpen s p a).store p).removalListener = some s.nextListenerId
        ∧ ((addParticleNearestOpen s p a).store p).removalListener
            ≠ (s.store p).removalListener) := by
  have hm : p ∈ s.particles := by simpa [containsParticle] using hmem
  have hcount : 1 ≤ s.particles.count p := List.count_pos_iff.mpr hm
  have key : ∀ v : Vec2,
      (addParticle (setDestination s p v) p a).particles = s.particles ++ [p]
      ∧ 2 ≤ (addParticle (setDestination s p v) p a).particles.count p
      ∧ ((addParticle (setDestination s p v) p a).store p).removalListener
          = some s.nextListenerId
      ∧ ((addParticle (setDestination s p v) p a).store p).removalListener
          ≠ (s.store p).removalListener := by
    intro v
    have hparts : (addParticle (setDestination s p v) p a).particles = s.particles ++ [p] := by
      rw [addParticle_particles, setDestination_particles]
    refine ⟨hparts, ?_, ?_, ?_⟩
    · rw [hparts, List.count_append]
      have h1 : [p].count p = 1 := by simp
      omega
    · rw [addParticle_listener_self]
      rfl
    · rw [addParticle_listener_self]
      show some (setDestination s p v).nextListenerId ≠ (s.store p).removalListener
      rw [hlis]
      simp only [ne_eq, Option.some.injEq]
      exact fun h => htok (h.symm ▸ rfl)
  constructor
  · intro s1 h1
    unfold addParticleFirstOpen at h1
    cases hl : getFirstOpenLocation s fuel with
    | none => rw [hl] at h1; exact absurd h1 (by simp)
    | some l =>
      rw [hl] at h1
      simp only [Option.map_some', Option.some.injEq] at h1
      subst h1
      exact key l
  · exact key _

/-- Witness for `addParticle_no_membership_check`: re-adding particle 0
(already a member of `sW4a` with listener token 0, `nextListenerId = 1`)
makes it occur twice and replaces the stored listener token. -/
theorem addParticle_no_membership_check_witness :
    2 ≤ (addParticleNearestOpen sW4a 0 false).particles.count 0
    ∧ ((addParticleNearestOpen sW4a 0 false).store 0).removalListener
        = some sW4a.nextListenerId
    ∧ ((addParticleNearestOpen sW4a 0 false).store 0).removalListener
        ≠ (sW4a.store 0).removalListener := by
  have h := (addParticle_no_membership_check sW4a 0 false 60 0
    (by decide) (by decide) (by decide)).2
  exact ⟨h.2.1, h.2.2.1, h.2.2.2⟩

/-! ### Bridging lemmas: squared distances versus real Euclidean distances -/

/-- Comparing squared distances over `ℚ` is the same as comparing the real
Euclidean distances, which justifies embedding `a.distance(p) <
b.distance(p)` as `distSq a p < distSq b p`. -/
theorem distSq_lt_iff_dist_lt (u v w z : Vec2) :
    distSq u v < distSq w z ↔
      Real.sqrt ((distSq u v : ℚ) : ℝ) < Real.sqrt ((distSq w z : ℚ) : ℝ) := by
  have h1 : (0:ℚ) ≤ distSq u v := by unfold distSq; positivity
  have h2 : (0:ℚ) ≤ distSq w z := by unfold distSq; positivity
  have h1' : (0:ℝ) ≤ ((distSq u v : ℚ) : ℝ) := by exact_mod_cast h1
  constructor
  · intro h
    exact Real.sqrt_lt_sqrt h1' (by exact_mod_cast h)
  · intro h
    by_contra hle
    push_neg at hle
    have h2' : (0:ℝ) ≤ ((distSq w z : ℚ) : ℝ) := by exact_mod_cast h2
    have : Real.sqrt ((distSq w z : ℚ) : ℝ) ≤ Real.sqrt ((distSq u v : ℚ) : ℝ) :=
      Real.sqrt_le_sqrt (by exact_mod_cast hle)
    exact absurd h (not_lt.mpr this)

/-- `distLtB u v c` is exactly the real comparison `distance(u,v) < c`,
which justifies embedding `distance < sphereRadius * 3` as `distLtB`. -/
theorem distLtB_iff_dist_lt (u v : Vec2) (c : ℚ) :
    distLtB u v c = true ↔ Real.sqrt ((distSq u v : ℚ) : ℝ) < ((c : ℚ) : ℝ) := by
  unfold distLtB
  simp only [Bool.and_eq_true, decide_eq_true_eq]
  have hd : (0:ℚ) ≤ distSq u v := by unfold distSq; positivity
  constructor
  · rintro ⟨hc, hlt⟩
    rcases eq_or_lt_of_le hc with hc0 | hc0
    · exfalso
      rw [← hc0] at hlt
      simp at hlt
      exact absurd hlt (not_lt.mpr hd)
    · have hc0' : (0:ℝ) < ((c:ℚ):ℝ) := by exact_mod_cast hc0
      refine (Real.sqrt_lt' hc0').mpr ?_
      exact_mod_cast hlt
  · intro h
    have hc0' : (0:ℝ) < ((c:ℚ):ℝ) := lt_of_le_of_lt (Real.sqrt_nonneg _) h
    refine ⟨by exact_mod_cast hc0'.le, ?_⟩
    have := (Real.sqrt_lt' hc0').mp h
    exact_mod_cast this

/-! ### C3: grid geometry -/

/-- x-coordinate of slot `i` (0-based, left to right) of pyramid layer
`layer`, as scanned by both search loops: the running
`offsetFromBucketEdge` after `layer` non-degenerate layer steps is
`initOffsetFromBucketEdge + layer * sphereRadius`. -/
def slotX (s : SphereBucket) (layer i : Nat) : ℚ :=
  s.position.x - s.width / 2 + (initOffsetFromBucketEdge s + (layer : ℚ) * s.sphereRadius) +
    (i : ℚ) * 2 * s.sphereRadius

/-- The grid slot coordinate at `(layer, i)` within the stacking pyramid. -/
def gridSlot (s : SphereBucket) (layer i : Nat) : Vec2 :=
  ⟨slotX s layer i, getYPositionForLayer s layer⟩

/-- Modelled from the spec ("Supporting member: a member in the layer
directly below a given position, within lateral range 3*sphereRadius"):
the number of members whose destination lies in the layer directly below
layer `L` and within lateral (x-axis) range `3 * sphereRadius` of `q`. -/
def specSupportCount (s : SphereBucket) (L : Nat) (q : Vec2) : Nat :=
  s.particles.countP (fun pid =>
    decide ((s.store pid).destination.y = getYPositionForLayer s (L - 1)) &&
    decide (|(s.store pid).destination.x - q.x| < 3 * s.sphereRadius))

/-- Layer y-positions are strictly increasing in the layer index. -/
theorem ypos_lt (s : SphereBucket) (hr : 0 < s.sphereRadius) {j k : Nat} (h : j < k) :
    getYPositionForLayer s j < getYPositionForLayer s k := by
  unfold getYPositionForLayer
  have hjk : (j:ℚ) < (k:ℚ) := by exact_mod_cast h
  have h433 : (0:ℚ) < 433/500 := by norm_num
  nlinarith [mul_pos (sub_pos.mpr hjk) (mul_pos hr h433)]

/-- Layer y-positions are injective in the layer index. -/
theorem ypos_inj (s : SphereBucket) (hr : 0 < s.sphereRadius) {j k : Nat}
    (h : getYPositionForLayer s j = getYPositionForLayer s k) : j = k := by
  rcases Nat.lt_trichotomy j k with hlt | heq | hgt
  · exact absurd h (ne_of_lt (ypos_lt s hr hlt))
  · exact heq
  · exact absurd h.symm (ne_of_lt (ypos_lt s hr hgt))

/-- x-difference between a slot in the layer directly below and a slot in
layer `L`: an odd multiple of `sphereRadius`. -/
theorem gridSlot_x_sub (s : SphereBucket) {L : Nat} (hL : 1 ≤ L) (i j' : Nat) :
    (gridSlot s (L - 1) j').x - (gridSlot s L i).x
      = ((2 * ((j':ℤ) - (i:ℤ)) - 1 : ℤ) : ℚ) * s.sphereRadius := by
  unfold gridSlot slotX
  rw [Nat.cast_sub hL]
  push_cast
  ring

/-- y-difference between the layer directly below and layer `L`. -/
theorem gridSlot_y_sub (s : SphereBucket) {L : Nat} (hL : 1 ≤ L) (i j' : Nat) :
    (gridSlot s (L - 1) j').y - (gridSlot s L i).y = -(s.sphereRadius * 2 * (433 / 500)) := by
  unfold gridSlot getYPositionForLayer
  rw [Nat.cast_sub hL]
  push_cast
  ring

/-- The odd integer `2*m - 1` squared stays below `9 - (433/250)^2 =
375011/62500` exactly when it is `±1`, i.e. `m ∈ {0, 1}`. -/
theorem odd_sq_bound (m : ℤ) :
    ((((2 * m - 1 : ℤ) : ℚ) ^ 2 < 375011 / 62500) ↔ (m = 0 ∨ m = 1))
    ∧ ((|((2 * m - 1 : ℤ) : ℚ)| < 3) ↔ (m = 0 ∨ m = 1)) := by
  have habs : |((2 * m - 1 : ℤ) : ℚ)| = ((|2 * m - 1| : ℤ) : ℚ) := Int.cast_abs.symm
  constructor
  · constructor
    · intro h
      have h9 : (((2 * m - 1 : ℤ) : ℚ)) ^ 2 < 7 := lt_trans h (by norm_num)
      have hsq : ((2 * m - 1) ^ 2 : ℤ) < 7 := by exact_mod_cast h9
      have h1 : 2 * m - 1 ≤ 2 := by nlinarith
      have h2 : -2 ≤ 2 * m - 1 := by nlinarith
      omega
    · rintro (rfl | rfl) <;> norm_num
  · constructor
    · intro h
      rw [habs] at h
      have : |2 * m - 1| < 3 := by exact_mod_cast h
      have h1 := abs_lt.mp this
      omega
    · rintro (rfl | rfl) <;> norm_num

/-- Pointwise congruence for `List.countP`. -/
theorem countP_congr_list {α : Type} (p q : α → Bool) :
    ∀ l : List α, (∀ a ∈ l, p a = q a) → l.countP p = l.countP q := by
  intro l
  induction l with
  | nil => intro _; rfl
  | cons a t ih =>
    intro h
    rw [List.countP_cons, List.countP_cons, h a (by simp),
      ih (fun b hb => h b (by simp [hb]))]

/-- On pyramid grid coordinates the code's supporting-particle test
(strictly lower `y` and Euclidean distance `< 3 * sphereRadius`) is exactly
the spec's test (in the layer directly below and within lateral range
`< 3 * sphereRadius`): the hexagonal vertical step makes layers two or more
below unreachable, and within the layer directly below the odd-multiple
grid spacing makes the two tests agree. -/
theorem support_pred_iff (s : SphereBucket) (hr : 0 < s.sphereRadius)
    (L i j j' : Nat) (hL : 1 ≤ L) :
    ((gridSlot s j j').y < (gridSlot s L i).y
      ∧ distLtB (gridSlot s j j') (gridSlot s L i) (s.sphereRadius * 3) = true)
    ↔ ((gridSlot s j j').y = getYPositionForLayer s (L - 1)
      ∧ |(gridSlot s j j').x - (gridSlot s L i).x| < 3 * s.sphereRadius) := by
  rcases Nat.lt_trichotomy j (L - 1) with hjlt | hjeq | hjgt
  · -- j at least two layers below L: both sides fail
    constructor
    · rintro ⟨-, hd⟩
      exfalso
      unfold distLtB at hd
      simp only [Bool.and_eq_true, decide_eq_true_eq] at hd
      obtain ⟨-, hd⟩ := hd
      unfold distSq at hd
      have hdy : (gridSlot s j j').y - (gridSlot s L i).y
          = ((j:ℚ) - (L:ℚ)) * (s.sphereRadius * 2 * (433 / 500)) := by
        unfold gridSlot getYPositionForLayer
        ring
      rw [hdy] at hd
      have h2L : (2:ℚ) ≤ (L:ℚ) - (j:ℚ) := by
        have hj2 : (j:ℚ) + 2 ≤ (L:ℚ) := by exact_mod_cast (by omega : j + 2 ≤ L)
        linarith
      have hA2 : (4:ℚ) ≤ ((L:ℚ) - (j:ℚ)) * ((L:ℚ) - (j:ℚ)) := by nlinarith [h2L]
      nlinarith [sq_nonneg ((gridSlot s j j').x - (gridSlot s L i).x),
        mul_le_mul_of_nonneg_right hA2 (mul_pos hr hr).le, hd]
    · rintro ⟨hy, -⟩
      exfalso
      have := ypos_inj s hr (j := j) (k := L - 1) hy
      omega
  · -- j = L - 1: the distance tests coincide
    subst hjeq
    have hylt : getYPositionForLayer s (L - 1) < getYPositionForLayer s L :=
      ypos_lt s hr (by omega)
    have hdx := gridSlot_x_sub s hL i j'
    have hdy := gridSlot_y_sub s hL i j'
    have hb := odd_sq_bound ((j':ℤ) - (i:ℤ))
    constructor
    · rintro ⟨-, hd⟩
      refine ⟨rfl, ?_⟩
      unfold distLtB at hd
      simp only [Bool.and_eq_true, decide_eq_true_eq] at hd
      obtain ⟨-, hd⟩ := hd
      unfold distSq at hd
      rw [hdx, hdy] at hd
      have hksq : (((2 * ((j':ℤ) - (i:ℤ)) - 1 : ℤ) : ℚ)) ^ 2 < 375011 / 62500 := by
        by_contra hge
        push_neg at hge
        nlinarith [mul_le_mul_of_nonneg_right hge (mul_pos hr hr).le, hd]
      have habs : |((2 * ((j':ℤ) - (i:ℤ)) - 1 : ℤ) : ℚ)| < 3 := hb.2.mpr (hb.1.mp hksq)
      rw [hdx, abs_mul, abs_of_pos hr]
      exact mul_lt_mul_of_pos_right habs hr
    · rintro ⟨-, hx⟩
      refine ⟨hylt, ?_⟩
      unfold distLtB
      simp only [Bool.and_eq_true, decide_eq_true_eq]
      refine ⟨by linarith, ?_⟩
      unfold distSq
      rw [hdx, hdy]
      rw [hdx, abs_mul, abs_of_pos hr] at hx
      have habs : |((2 * ((j':ℤ) - (i:ℤ)) - 1 : ℤ) : ℚ)| < 3 :=
        (mul_lt_mul_right hr).mp hx
      have hksq := hb.1.mpr (hb.2.mp habs)
      nlinarith [mul_lt_mul_of_pos_right hksq (mul_pos hr hr)]
  · -- j at or above L: both sides fail
    constructor
    · rintro ⟨hy, -⟩
      exfalso
      have hLj : L ≤ j := by omega
      rcases eq_or_lt_of_le hLj with rfl | hlt
      · exact lt_irrefl _ hy
      · exact absurd hy (not_lt.mpr (le_of_lt (ypos_lt s hr hlt)))
    · rintro ⟨hy, -⟩
      exfalso
      have := ypos_inj s hr (j := j) (k := L - 1) hy
      omega

/-- With pairwise-distinct destinations on the pyramid grid, at most two
members can support a layer-`L` slot from the layer directly below (only the
slots at lateral offsets `-sphereRadius` and `+sphereRadius` are in range). -/
theorem specSupportCount_le_two (s : SphereBucket) (hr : 0 < s.sphereRadius)
    (L i : Nat) (hL : 1 ≤ L)
    (hgrid : ∀ pid ∈ s.particles, ∃ j j', (s.store pid).destination = gridSlot s j j')
    (hnodup : (s.particles.map (fun pid => (s.store pid).destination)).Nodup) :
    specSupportCount s L (gridSlot s L i) ≤ 2 := by
  unfold specSupportCount
  rw [List.countP_eq_length_filter]
  have hsub : ((s.particles.filter (fun pid =>
      decide ((s.store pid).destination.y = getYPositionForLayer s (L - 1)) &&
      decide (|(s.store pid).destination.x - (gridSlot s L i).x| < 3 * s.sphereRadius))).map
        (fun pid => (s.store pid).destination))
      ⊆ [gridSlot s (L - 1) i, gridSlot s (L - 1) (i + 1)] := by
    intro v hv
    simp only [List.mem_map] at hv
    obtain ⟨pid, hpid, hvd⟩ := hv
    have hpmem : pid ∈ s.particles := (List.mem_filter.mp hpid).1
    have hpp := (List.mem_filter.mp hpid).2
    obtain ⟨j, j', hdest⟩ := hgrid pid hpmem
    simp only [Bool.and_eq_true, decide_eq_true_eq] at hpp
    obtain ⟨hy, hx⟩ := hpp
    rw [hdest] at hy hx
    have hj : j = L - 1 := ypos_inj s hr hy
    subst hj
    rw [gridSlot_x_sub s hL i j', abs_mul, abs_of_pos hr] at hx
    have habs : |((2 * ((j':ℤ) - (i:ℤ)) - 1 : ℤ) : ℚ)| < 3 := (mul_lt_mul_right hr).mp hx
    have hm := (odd_sq_bound ((j':ℤ) - (i:ℤ))).2.mp habs
    rw [← hvd, hdest]
    rcases hm with hm | hm
    · have hji : j' = i := by omega
      subst hji
      simp
    · have hji : j' = i + 1 := by omega
      subst hji
      simp
  have hnd : ((s.particles.filter (fun pid =>
      decide ((s.store pid).destination.y = getYPositionForLayer s (L - 1)) &&
      decide (|(s.store pid).destination.x - (gridSlot s L i).x| < 3 * s.sphereRadius))).map
        (fun pid => (s.store pid).destination)).Nodup :=
    List.Nodup.sublist (List.Sublist.map _ (List.filter_sublist _)) hnodup
  have hlen := (hnd.subperm hsub).length_le
  simpa using hlen

/-- C3: in the nearest-open-slot search an empty layer-0 slot is always
admissible, and — for states whose member destinations are pairwise
distinct pyramid grid slots, as produced by the engine itself — an empty
slot in layer `L ≥ 1` is admissible (`countSupportingParticles == 2`) if
and only if at least 2 occupied supporting slots lie in the layer directly
below within lateral range `3 * sphereRadius`. -/
theorem slot_admissibility (s : SphereBucket) (L i : Nat)
    (hr : 0 < s.sphereRadius) (hL : 1 ≤ L)
    (hgrid : ∀ pid ∈ s.particles, ∃ j j', (s.store pid).destination = gridSlot s j j')
    (hnodup : (s.particles.map (fun pid => (s.store pid).destination)).Nodup) :
    (∀ q : Vec2, slotSupportable s 0 q = true)
    ∧ (slotSupportable s L (gridSlot s L i) = true ↔
        2 ≤ specSupportCount s L (gridSlot s L i)) := by
  constructor
  · intro q; rfl
  · have hcnt : countSupportingParticles s (gridSlot s L i)
        = specSupportCount s L (gridSlot s L i) := by
      unfold countSupportingParticles specSupportCount
      apply countP_congr_list
      intro pid hpid
      obtain ⟨j, j', hdest⟩ := hgrid pid hpid
      rw [hdest, Bool.eq_iff_iff]
      simp only [Bool.and_eq_true, decide_eq_true_eq]
      exact support_pred_iff s hr L i j j' hL
    have hle := specSupportCount_le_two s hr L i hL hgrid hnodup
    unfold slotSupportable
    rw [hcnt]
    have hL0 : (L == 0) = false := by
      simp only [beq_eq_false_iff_ne, ne_eq]
      omega
    rw [hL0, Bool.false_or]
    constructor
    · intro h
      have h2 : specSupportCount s L (gridSlot s L i) = 2 := by
        simpa using h
      omega
    · intro h
      have h2 : specSupportCount s L (gridSlot s L i) = 2 := le_antisymm hle h
      simp [h2]

/-- Witness for `slot_admissibility` on `sC2`: members at the two leftmost
bottom slots; the layer-1 slot above them is admissible and indeed has two
supporting slots, and layer-0 slots are always admissible. -/
theorem slot_admissibility_witness :
    slotSupportable sC2 0 (gridSlot sC2 0 3) = true
    ∧ slotSupportable sC2 1 (gridSlot sC2 1 0) = true
    ∧ 2 ≤ specSupportCount sC2 1 (gridSlot sC2 1 0) := by
  have hgrid : ∀ pid ∈ sC2.particles, ∃ j j', (sC2.store pid).destination = gridSlot sC2 j j' := by
    intro pid hpid
    have he : sC2.particles = [0, 1] := rfl
    rw [he] at hpid
    rcases List.mem_cons.mp hpid with rfl | hpid
    · exact ⟨0, 0, by decide⟩
    rcases List.mem_cons.mp hpid with rfl | hpid
    · exact ⟨0, 1, by decide⟩
    · exact absurd hpid (List.not_mem_nil pid)
  have h := slot_admissibility sC2 1 0 (by decide) (by decide) hgrid (by decide)
  exact ⟨h.1 _, h.2.mpr (by decide), by decide⟩
